import Mathlib

/-!
Verification of the Arrow Flight CLI client (an Arrow Flight protocol
client plus a bounded-concurrency load tester).

The development shallowly embeds the two core modules:

* `flight-client.js` — the per-query protocol client: descriptor path
  construction (`getFlightInfo`), the streamed fetch (`doGet`), the
  end-to-end query (`queryDataset`) and the health probe (`checkHealth`).
  Network outcomes are passed in as explicit parameters (the resolution
  outcome, the list of received stream messages and the terminal stream
  event, the decode oracle), and `performance.now()` readings are drawn
  from an explicit clock so that measured latencies are rational numbers.

* `load-tester.js` — `runLoadTest` is modelled as a small-step transition
  system on `LoadState`: a `spawn` step is the loop body admitting request
  `i` (with its tenant chosen as `tenants[i % tenants.length]`) and a
  `settle` step is the completion of one outstanding request appending its
  result.  The `blocked` flag models the `await Promise.race(pending)`
  suspension taken when `pending.size >= concurrency`.  `calculateMetrics`
  is translated directly.
-/

namespace FlightCli

/-- An opaque byte block (a gRPC `data_body` buffer); bytes as naturals. -/
abbrev Bytes := List Nat

/-- An Arrow table as the client observes it: only its row count is read. -/
structure ArrowTable where
  numRows : Nat
deriving DecidableEq, Repr

/-- An opaque ticket record (`endpoint[0].ticket` in `flight-client.js`). -/
structure Ticket where
  ticket : Bytes
deriving DecidableEq, Repr

/-- One endpoint of a `FlightInfo` response, carrying a ticket. -/
structure Endpoint where
  ticket : Ticket
deriving DecidableEq, Repr

/-- The server response to `GetFlightInfo`: a list of endpoints. -/
structure FlightInfo where
  endpoint : List Endpoint
deriving DecidableEq, Repr

/-- The outcome of one end-to-end query (`queryDataset`).  The JS object
has `rows`/`bytes`/phase-latency fields only on the success path and an
`error` field only on the error path; absent fields are `none`.  Both
paths set `status` and `total_latency_ms`. -/
structure QueryResult where
  status : String
  tenant_id : String
  dataset : String
  rows : Option Nat
  bytes : Option Nat
  metadata_latency_ms : Option ℚ
  transfer_latency_ms : Option ℚ
  total_latency_ms : ℚ
  error : Option String
deriving DecidableEq, Repr

/-- The aggregate metrics returned by `runLoadTest` / `calculateMetrics`. -/
structure LoadTestMetrics where
  total_requests : Nat
  successful : Nat
  failed : Nat
  total_rows : Nat
  total_bytes : Nat
  duration_s : ℚ
  throughput : ℚ
  avg_latency_ms : ℚ
  p95_latency_ms : ℚ
deriving DecidableEq, Repr

/-- `LoadTester.calculateMetrics`, translated from `load-tester.js`.
`latencies[Math.floor(latencies.length * 0.95)]` is modelled as index
`latencies.length * 19 / 20` (natural floor division), which equals
`⌊0.95 · n⌋` exactly. -/
def calculateMetrics (results : List QueryResult) (duration : ℚ) : LoadTestMetrics :=
  let successful := results.filter (fun r => r.status == "Success")
  let failed := results.filter (fun r => !(r.status == "Success"))
  let latencies := List.insertionSort (· ≤ ·) (successful.map (fun r => r.total_latency_ms))
  let totalRows := successful.foldl (fun sum r => sum + r.rows.getD 0) 0
  let totalBytes := successful.foldl (fun sum r => sum + r.bytes.getD 0) 0
  let avgLatency : ℚ :=
    if 0 < latencies.length then latencies.foldl (fun a b => a + b) 0 / (latencies.length : ℚ)
    else 0
  let p95Latency : ℚ :=
    if 0 < latencies.length then latencies.getD (latencies.length * 19 / 20) 0
    else 0
  { total_requests := results.length
    successful := successful.length
    failed := failed.length
    total_rows := totalRows
    total_bytes := totalBytes
    duration_s := duration
    throughput := (results.length : ℚ) / duration
    avg_latency_ms := avgLatency
    p95_latency_ms := p95Latency }

/-- The FlightDescriptor path built by `getFlightInfo`: tenant and dataset
segments, then `String(rows)` appended under the JS truthiness test
`if (rows)` — i.e. when a row limit is present and nonzero (`null`,
`undefined`, `0` and `NaN` are falsy; `NaN`/absent map to `none`). -/
def buildPath (tenantId datasetName : String) (rows : Option Int) : List String :=
  let path := [tenantId, datasetName]
  match rows with
  | none => path
  | some r => if r = 0 then path else path ++ [toString r]

/-- The terminal event of a server stream: a normal `end` or an `error`. -/
inductive StreamTerminal where
  | streamEnd : StreamTerminal
  | streamError : String → StreamTerminal
deriving DecidableEq, Repr

/-- The value `doGet` resolves to: `{table, rows, bytes}` (the table is
kept only when exactly one chunk was decoded). -/
structure DoGetResult where
  table : Option ArrowTable
  rows : Nat
  bytes : Nat
deriving DecidableEq, Repr

/-- The decoding loop inside `doGet`'s `end` handler: decode each chunk
with `tableFromIPC` (the `decode` oracle), accumulating the decoded
tables, the total row count and the total byte length.  The first decode
failure aborts the loop with that error. -/
def decodeChunks (decode : Bytes → Except String ArrowTable) :
    List Bytes → Except String (List ArrowTable × Nat × Nat)
  | [] => .ok ([], 0, 0)
  | c :: cs =>
    match decode c with
    | .error e => .error e
    | .ok t =>
      match decodeChunks decode cs with
      | .error e => .error e
      | .ok (ts, rows, bytes) => .ok (t :: ts, t.numRows + rows, c.length + bytes)

/-- `FlightClient.doGet`, translated from `flight-client.js`.  `events` is
the ordered list of `data_body` buffers of the received `FlightData`
messages; only nonempty bodies are accumulated as chunks.  `terminal` is
the stream's terminal event: on `error` the promise rejects (accumulated
chunks are discarded); on `end` with zero chunks it resolves
`{table: null, rows: 0, bytes: 0}`; otherwise every chunk is decoded and
the totals returned, any decode failure rejecting the whole fetch. -/
def doGet (events : List Bytes) (terminal : StreamTerminal)
    (decode : Bytes → Except String ArrowTable) : Except String DoGetResult :=
  let chunks := events.filter (fun c => decide (0 < c.length))
  match terminal with
  | .streamError msg => .error msg
  | .streamEnd =>
    if chunks.length = 0 then .ok { table := none, rows := 0, bytes := 0 }
    else
      match decodeChunks decode chunks with
      | .error e => .error e
      | .ok (tables, totalRows, totalBytes) =>
        .ok { table := if tables.length = 1 then tables.head? else none
              rows := totalRows
              bytes := totalBytes }

/-- `FlightClient.queryDataset`, translated from `flight-client.js`.  The
resolution outcome and the fetch behaviour are passed as parameters;
`clock k` is the value of the `k`-th `performance.now()` call made on the
taken path (calls are numbered in execution order: 0 `startTotal`,
1 `startMeta`, 2 after resolution, then per path as in the source). -/
def queryDataset (clock : Nat → ℚ) (resolveOut : Except String FlightInfo)
    (fetchFn : Ticket → Except String DoGetResult)
    (tenantId dataset : String) : QueryResult :=
  let startTotal := clock 0
  let startMeta := clock 1
  match resolveOut with
  | .error msg =>
    { status := "Error", tenant_id := tenantId, dataset := dataset
      rows := none, bytes := none
      metadata_latency_ms := none, transfer_latency_ms := none
      total_latency_ms := clock 2 - startTotal, error := some msg }
  | .ok info =>
    let metaLatency := clock 2 - startMeta
    match info.endpoint with
    | [] =>
      { status := "Error", tenant_id := tenantId, dataset := dataset
        rows := none, bytes := none
        metadata_latency_ms := none, transfer_latency_ms := none
        total_latency_ms := clock 3 - startTotal, error := some "No endpoints returned" }
    | ep :: _ =>
      let startTransfer := clock 3
      match fetchFn ep.ticket with
      | .error msg =>
        { status := "Error", tenant_id := tenantId, dataset := dataset
          rows := none, bytes := none
          metadata_latency_ms := none, transfer_latency_ms := none
          total_latency_ms := clock 4 - startTotal, error := some msg }
      | .ok result =>
        { status := "Success", tenant_id := tenantId, dataset := dataset
          rows := some result.rows, bytes := some result.bytes
          metadata_latency_ms := some metaLatency
          transfer_latency_ms := some (clock 4 - startTransfer)
          total_latency_ms := clock 5 - startTotal, error := none }

/-- The first of `end` / `error` / the 5-second timeout to fire on the
`ListFlights` stream opened by `checkHealth`. -/
inductive ProbeTerminal where
  | probeEnd : ProbeTerminal
  | probeError : ProbeTerminal
  | probeTimeout : ProbeTerminal
deriving DecidableEq, Repr

/-- `FlightClient.checkHealth`, translated from `flight-client.js`:
`dataEvents` is the number of `data` events observed before the terminal
event.  The promise resolves `true` on `end`, `false` on `error`, and the
`healthy` flag (set by any `data` event) when the timeout fires first; it
always resolves with a boolean and never rejects. -/
def checkHealth (dataEvents : Nat) (terminal : ProbeTerminal) : Bool :=
  match terminal with
  | .probeEnd => true
  | .probeError => false
  | .probeTimeout => decide (0 < dataEvents)

/-- A state of the `runLoadTest` orchestration loop: the configured
request count, concurrency cap and tenant rotation, the tenants of the
requests admitted so far (in admission order), the results collected so
far (in completion order), and whether the loop is suspended in
`await Promise.race(pending)`. -/
structure LoadState where
  total : Nat
  cap : Nat
  tenants : List String
  admitted : List String
  results : List QueryResult
  blocked : Bool
deriving DecidableEq, Repr

/-- The state of `runLoadTest` before its loop runs. -/
def initState (total cap : Nat) (tenants : List String) : LoadState :=
  { total := total, cap := cap, tenants := tenants
    admitted := [], results := [], blocked := false }

/-- Requests admitted but not yet completed (the size of `pending`). -/
def LoadState.outstanding (s : LoadState) : Nat :=
  s.admitted.length - s.results.length

/-- One step of the `runLoadTest` loop semantics.  `spawn` is one loop
iteration: when not suspended and requests remain, request
`i = admitted.length` is admitted with tenant `tenants[i % tenants.length]`
and the loop suspends exactly when `pending.size >= concurrency`
afterwards.  `settle` is the completion of any one outstanding request:
its result is appended to `results` and a suspended loop resumes (the
`Promise.race` wins). -/
inductive LoadStep : LoadState → LoadState → Prop where
  | spawn (s : LoadState) (h1 : s.blocked = false) (h2 : s.admitted.length < s.total) :
      LoadStep s
        { s with
          admitted := s.admitted ++ [s.tenants.getD (s.admitted.length % s.tenants.length) ""]
          blocked := decide (s.cap ≤ s.admitted.length + 1 - s.results.length) }
  | settle (s : LoadState) (r : QueryResult) (h : s.results.length < s.admitted.length) :
      LoadStep s { s with results := s.results ++ [r], blocked := false }

/-- Reachability of an orchestrator state along any interleaving. -/
def Reachable (a b : LoadState) : Prop := Relation.ReflTransGen LoadStep a b

/-- A success-shaped `QueryResult` with a given tenant, dataset and total
latency, as `queryDataset` produces on its success path. -/
def mkSuccess (tenant dataset : String) (lat : ℚ) : QueryResult :=
  { status := "Success", tenant_id := tenant, dataset := dataset
    rows := some 0, bytes := some 0
    metadata_latency_ms := some 0, transfer_latency_ms := some 0
    total_latency_ms := lat, error := none }

/-- The spec's load-test scenario: ten successful results over rotating
tenants `a`, `b` with total latencies 10, 20, ..., 100 ms. -/
def tenResults : List QueryResult :=
  [mkSuccess "a" "sales" 10, mkSuccess "b" "sales" 20, mkSuccess "a" "sales" 30,
   mkSuccess "b" "sales" 40, mkSuccess "a" "sales" 50, mkSuccess "b" "sales" 60,
   mkSuccess "a" "sales" 70, mkSuccess "b" "sales" 80, mkSuccess "a" "sales" 90,
   mkSuccess "b" "sales" 100]

/-! ### Helper lemmas -/

theorem length_filter_add_length_filter_not {α : Type} (l : List α) (p : α → Bool) :
    (l.filter p).length + (l.filter (fun a => !(p a))).length = l.length := by
  induction l with
  | nil => rfl
  | cons a l ih =>
    cases hpa : p a <;> simp [List.filter_cons, hpa] <;> omega

theorem foldl_add_eq_sum (l : List ℚ) (a : ℚ) :
    l.foldl (fun x y => x + y) a = a + l.sum := by
  induction l generalizing a with
  | nil => simp
  | cons b l ih => rw [List.foldl_cons, ih, List.sum_cons]; ring

theorem decodeChunks_ok (decode : Bytes → Except String ArrowTable)
    (cs : List Bytes) (ts : List ArrowTable) (rows bytes : Nat)
    (h : decodeChunks decode cs = .ok (ts, rows, bytes)) :
    List.Forall₂ (fun c t => decode c = .ok t) cs ts ∧
    rows = (ts.map (fun t => t.numRows)).sum ∧
    bytes = (cs.map (fun c => c.length)).sum := by
  induction cs generalizing ts rows bytes with
  | nil =>
    simp only [decodeChunks, Except.ok.injEq, Prod.mk.injEq] at h
    obtain ⟨h1, h2, h3⟩ := h
    subst h1; subst h2; subst h3
    exact ⟨List.Forall₂.nil, rfl, rfl⟩
  | cons c cs ih =>
    simp only [decodeChunks] at h
    cases hd : decode c with
    | error e => rw [hd] at h; cases h
    | ok t =>
      rw [hd] at h
      cases hr : decodeChunks decode cs with
      | error e => rw [hr] at h; cases h
      | ok x =>
        obtain ⟨ts', rows', bytes'⟩ := x
        rw [hr] at h
        simp only [Except.ok.injEq, Prod.mk.injEq] at h
        obtain ⟨h1, h2, h3⟩ := h
        obtain ⟨hf, hrw, hbw⟩ := ih ts' rows' bytes' hr
        subst h1; subst h2; subst h3
        refine ⟨List.Forall₂.cons hd hf, ?_, ?_⟩
        · simp [hrw]
        · simp [hbw]

theorem decodeChunks_error_of_mem (decode : Bytes → Except String ArrowTable)
    (cs : List Bytes) (c : Bytes) (hc : c ∈ cs) (e : String)
    (hdec : decode c = .error e) :
    ∃ m, decodeChunks decode cs = .error m := by
  induction cs with
  | nil => cases hc
  | cons d ds ih =>
    rcases List.mem_cons.mp hc with hcd | hmem
    · subst hcd
      exact ⟨e, by simp [decodeChunks, hdec]⟩
    · cases hd : decode d with
      | error e2 => exact ⟨e2, by simp [decodeChunks, hd]⟩
      | ok t =>
        obtain ⟨m, hm⟩ := ih hmem
        exact ⟨m, by simp [decodeChunks, hd, hm]⟩

/-- The inductive invariant of the `runLoadTest` loop: configuration is
constant, completions never outrun admissions, admissions never exceed
`totalRequests`, the number outstanding never exceeds the cap (strictly
below it whenever the loop is not suspended), and the `j`-th admitted
request carries tenant `tenants[j % tenants.length]`. -/
theorem reachable_invariant (total cap : Nat) (tenants : List String) (s : LoadState)
    (hcap : 1 ≤ cap) (h : Reachable (initState total cap tenants) s) :
    s.total = total ∧ s.cap = cap ∧ s.tenants = tenants ∧
    s.results.length ≤ s.admitted.length ∧
    s.admitted.length ≤ total ∧
    s.admitted.length - s.results.length ≤ cap ∧
    (s.blocked = false → s.admitted.length - s.results.length < cap) ∧
    (∀ j, j < s.admitted.length →
      s.admitted.getD j "" = tenants.getD (j % tenants.length) "") := by
  induction h with
  | refl =>
    refine ⟨rfl, rfl, rfl, Nat.le_refl _, Nat.zero_le _, by simp [initState],
      fun _ => by simpa [initState] using hcap, fun j hj => ?_⟩
    simp [initState] at hj
  | tail hab hbc ih =>
    rename_i b c
    obtain ⟨ht, hc, htn, hrm, hat, hout, hblk, hten⟩ := ih
    cases hbc with
    | spawn h1 h2 =>
      have hblk2 := hblk h1
      refine ⟨ht, hc, htn, ?_, ?_, ?_, ?_, ?_⟩
      · simp only [List.length_append, List.length_cons, List.length_nil]
        omega
      · simp only [List.length_append, List.length_cons, List.length_nil]
        omega
      · simp only [List.length_append, List.length_cons, List.length_nil]
        omega
      · intro hbf
        simp only [decide_eq_false_iff_not, not_le] at hbf
        simp only [List.length_append, List.length_cons, List.length_nil]
        omega
      · intro j hj
        dsimp only at hj ⊢
        simp only [List.length_append, List.length_cons, List.length_nil] at hj
        rcases Nat.lt_or_ge j b.admitted.length with hlt | hge
        · rw [List.getD_append _ _ _ _ hlt]
          exact hten j hlt
        · have hj2 : j = b.admitted.length := by omega
          subst hj2
          rw [List.getD_append_right _ _ _ _ (Nat.le_refl _), Nat.sub_self]
          simp [htn]
    | settle r hlt =>
      refine ⟨ht, hc, htn, ?_, hat, ?_, ?_, hten⟩
      · simp only [List.length_append, List.length_cons, List.length_nil]
        omega
      · simp only [List.length_append, List.length_cons, List.length_nil]
        omega
      · intro _
        simp only [List.length_append, List.length_cons, List.length_nil]
        omega

/-! ### Claims -/

/-- C1: `calculateMetrics` computes the latency statistics over the
successful results' total latencies sorted ascending: the average is
`sum / len` (0 when there is no successful result) and the p95 is the
element at index `⌊0.95 · len⌋` of the sorted sequence (0 when empty, an
in-bounds index otherwise); in particular a single successful result is
its own p95, and ten successful results with latencies 10, 20, ..., 100
ms yield average 55 and p95 100. -/
theorem calculateMetrics_latency_stats (results : List QueryResult) (d : ℚ)
    (r1 : QueryResult) (h1 : r1.status = "Success") :
    (∃ lats : List ℚ,
      List.Sorted (· ≤ ·) lats ∧
      List.Perm lats ((results.filter (fun r => r.status == "Success")).map
        (fun r => r.total_latency_ms)) ∧
      (calculateMetrics results d).avg_latency_ms =
        (if lats.length = 0 then 0 else lats.sum / (lats.length : ℚ)) ∧
      (calculateMetrics results d).p95_latency_ms =
        (if lats.length = 0 then 0 else lats.getD (lats.length * 19 / 20) 0) ∧
      (lats.length ≠ 0 → lats.length * 19 / 20 < lats.length)) ∧
    (calculateMetrics [r1] d).p95_latency_ms = r1.total_latency_ms ∧
    (calculateMetrics tenResults 1).avg_latency_ms = 55 ∧
    (calculateMetrics tenResults 1).p95_latency_ms = 100 := by
  refine ⟨⟨List.insertionSort (· ≤ ·)
      ((results.filter (fun r => r.status == "Success")).map (fun r => r.total_latency_ms)),
      List.sorted_insertionSort _ _, List.perm_insertionSort _ _, ?_, ?_, ?_⟩, ?_, ?_, ?_⟩
  · simp only [calculateMetrics]
    rcases Nat.eq_zero_or_pos (List.insertionSort (· ≤ ·)
        ((results.filter (fun r => r.status == "Success")).map
          (fun r => r.total_latency_ms))).length with h0 | h0
    · simp [h0]
    · rw [if_pos h0, if_neg (by omega), foldl_add_eq_sum, zero_add]
  · simp only [calculateMetrics]
    rcases Nat.eq_zero_or_pos (List.insertionSort (· ≤ ·)
        ((results.filter (fun r => r.status == "Success")).map
          (fun r => r.total_latency_ms))).length with h0 | h0
    · simp [h0]
    · rw [if_pos h0, if_neg (by omega)]
  · intro hne
    have hpos : 0 < (List.insertionSort (· ≤ ·)
        ((results.filter (fun r => r.status == "Success")).map
          (fun r => r.total_latency_ms))).length := Nat.pos_of_ne_zero hne
    omega
  · simp [calculateMetrics, h1, List.insertionSort, List.orderedInsert]
  · norm_num [calculateMetrics, tenResults, mkSuccess, List.insertionSort, List.orderedInsert]
  · norm_num [calculateMetrics, tenResults, mkSuccess, List.insertionSort, List.orderedInsert]

/-- Witness for C1: a single successful result with total latency 42 ms
has p95 latency exactly 42 ms. -/
theorem calculateMetrics_latency_stats_w :
    (mkSuccess "a" "sales" 42).status = "Success" ∧
    (calculateMetrics [mkSuccess "a" "sales" 42] 1).p95_latency_ms =
      (mkSuccess "a" "sales" 42).total_latency_ms :=
  ⟨rfl, (calculateMetrics_latency_stats [] 1 (mkSuccess "a" "sales" 42) rfl).2.1⟩

/-- C2: in every reachable state of a `runLoadTest` run with cap `C ≥ 1`,
at most `C` admitted requests are outstanding; moreover from a suspended
state the only possible step is the completion of an outstanding request
(no admission), and that completion resumes the loop. -/
theorem runLoadTest_concurrency_cap (total cap : Nat) (tenants : List String)
    (s : LoadState) (hcap : 1 ≤ cap)
    (h : Reachable (initState total cap tenants) s) :
    s.outstanding ≤ cap ∧
    (s.blocked = true → ∀ t, LoadStep s t →
      ∃ r, t.admitted = s.admitted ∧ t.results = s.results ++ [r] ∧ t.blocked = false) := by
  obtain ⟨-, -, -, -, -, hout, -, -⟩ := reachable_invariant total cap tenants s hcap h
  refine ⟨hout, ?_⟩
  intro hb t hstep
  cases hstep with
  | spawn h1 h2 => rw [h1] at hb; cases hb
  | settle r hlt => exact ⟨r, rfl, rfl, rfl⟩

/-- Witness for C2: the state reached after admitting the first request
under cap 1 (the loop is then suspended) satisfies the cap bound and
admits no further request until a completion occurs. -/
theorem runLoadTest_concurrency_cap_w :
    LoadState.outstanding { total := 2, cap := 1, tenants := ["a"], admitted := ["a"], results := [], blocked := true } ≤ 1 ∧
    (({ total := 2, cap := 1, tenants := ["a"], admitted := ["a"], results := [], blocked := true } : LoadState).blocked = true →
      ∀ t, LoadStep { total := 2, cap := 1, tenants := ["a"], admitted := ["a"], results := [], blocked := true } t →
      ∃ r, t.admitted = ["a"] ∧ t.results = [] ++ [r] ∧ t.blocked = false) :=
  runLoadTest_concurrency_cap 2 1 ["a"]
    { total := 2, cap := 1, tenants := ["a"], admitted := ["a"], results := [], blocked := true }
    (Nat.le_refl 1)
    (Relation.ReflTransGen.single
      (LoadStep.spawn (initState 2 1 ["a"]) rfl (by norm_num [initState])))

/-- C3 as stated is false on the code: on an empty endpoint list the
error message `queryDataset` records is `"No endpoints returned"`, not
`"no endpoints"` (shown here at a concrete resolution outcome with zero
endpoints). -/
theorem queryDataset_no_endpoints_cex :
    (queryDataset (fun _ => 0) (.ok { endpoint := [] })
      (fun _ => .ok { table := none, rows := 0, bytes := 0 }) "t" "sales").error =
        some "No endpoints returned" ∧
    ¬ (queryDataset (fun _ => 0) (.ok { endpoint := [] })
      (fun _ => .ok { table := none, rows := 0, bytes := 0 }) "t" "sales").error =
        some "no endpoints" := by
  refine ⟨rfl, ?_⟩
  decide

/-- C3 (amended): when resolution succeeds with zero endpoints,
`queryDataset` returns an Error-status result carrying the message
`"No endpoints returned"`, records no transfer-phase latency, and never
attempts the fetch phase (the outcome is identical for any two fetch
behaviours). -/
theorem queryDataset_no_endpoints (clock : Nat → ℚ)
    (fetchFn g : Ticket → Except String DoGetResult) (t ds : String)
    (info : FlightInfo) (hinfo : info.endpoint = []) :
    (queryDataset clock (.ok info) fetchFn t ds).status = "Error" ∧
    (queryDataset clock (.ok info) fetchFn t ds).error = some "No endpoints returned" ∧
    (queryDataset clock (.ok info) fetchFn t ds).transfer_latency_ms = none ∧
    queryDataset clock (.ok info) fetchFn t ds = queryDataset clock (.ok info) g t ds := by
  obtain ⟨eps⟩ := info
  simp only [FlightInfo.mk.injEq] at hinfo
  subst hinfo
  exact ⟨rfl, rfl, rfl, rfl⟩

/-- Witness for C3 (amended) at a concrete empty `FlightInfo` and two
distinct fetch behaviours. -/
theorem queryDataset_no_endpoints_w :
    (queryDataset (fun _ => 0) (.ok { endpoint := [] })
      (fun _ => .ok { table := none, rows := 7, bytes := 9 }) "t" "sales").status = "Error" ∧
    (queryDataset (fun _ => 0) (.ok { endpoint := [] })
      (fun _ => .ok { table := none, rows := 7, bytes := 9 }) "t" "sales").error =
        some "No endpoints returned" ∧
    (queryDataset (fun _ => 0) (.ok { endpoint := [] })
      (fun _ => .ok { table := none, rows := 7, bytes := 9 }) "t" "sales").transfer_latency_ms =
        none ∧
    queryDataset (fun _ => 0) (.ok { endpoint := [] })
      (fun _ => .ok { table := none, rows := 7, bytes := 9 }) "t" "sales" =
    queryDataset (fun _ => 0) (.ok { endpoint := [] })
      (fun _ => .error "boom") "t" "sales" :=
  queryDataset_no_endpoints (fun _ => 0)
    (fun _ => .ok { table := none, rows := 7, bytes := 9 }) (fun _ => .error "boom")
    "t" "sales" { endpoint := [] } rfl

/-- C4: the streamed fetch is atomic.  If the stream reports an error,
`doGet` rejects with it; if any accumulated chunk fails to decode,
`doGet` rejects; and any successful result accounts for every chunk: its
row count is the sum of the decoded row counts and its byte count the sum
of the chunk lengths, over the full chunk list — never a partial prefix. -/
theorem doGet_atomic (events : List Bytes) (terminal : StreamTerminal)
    (decode : Bytes → Except String ArrowTable) :
    (∀ msg, terminal = .streamError msg → doGet events terminal decode = .error msg) ∧
    (∀ c, c ∈ events.filter (fun c => decide (0 < c.length)) →
      ∀ e, decode c = .error e → ∃ m, doGet events terminal decode = .error m) ∧
    (∀ res, doGet events terminal decode = .ok res →
      terminal = .streamEnd ∧
      ∃ tables : List ArrowTable,
        List.Forall₂ (fun c t => decode c = .ok t)
          (events.filter (fun c => decide (0 < c.length))) tables ∧
        res.rows = (tables.map (fun t => t.numRows)).sum ∧
        res.bytes = ((events.filter (fun c => decide (0 < c.length))).map
          (fun c => c.length)).sum) := by
  refine ⟨?_, ?_, ?_⟩
  · intro msg hmsg
    subst hmsg
    rfl
  · intro c hc e he
    cases terminal with
    | streamError msg => exact ⟨msg, rfl⟩
    | streamEnd =>
      have hne : (events.filter (fun c => decide (0 < c.length))).length ≠ 0 := by
        intro h0
        rw [List.length_eq_zero] at h0
        rw [h0] at hc
        cases hc
      obtain ⟨m, hm⟩ := decodeChunks_error_of_mem decode _ c hc e he
      refine ⟨m, ?_⟩
      simp only [doGet]
      rw [if_neg hne, hm]
  · intro res hres
    cases terminal with
    | streamError msg => cases hres
    | streamEnd =>
      refine ⟨rfl, ?_⟩
      by_cases h0 : (events.filter (fun c => decide (0 < c.length))).length = 0
      · rw [List.length_eq_zero] at h0
        have hok : doGet events .streamEnd decode = .ok { table := none, rows := 0, bytes := 0 } := by
          simp [doGet, h0]
        rw [hok, Except.ok.injEq] at hres
        subst hres
        rw [h0]
        exact ⟨[], List.Forall₂.nil, rfl, rfl⟩
      · simp only [doGet] at hres
        rw [if_neg h0] at hres
        cases hdc : decodeChunks decode (events.filter (fun c => decide (0 < c.length))) with
        | error e => rw [hdc] at hres; cases hres
        | ok x =>
          obtain ⟨ts, rows, bytes⟩ := x
          rw [hdc] at hres
          simp only [Except.ok.injEq] at hres
          subst hres
          obtain ⟨hf, hrw, hbw⟩ := decodeChunks_ok decode _ ts rows bytes hdc
          exact ⟨ts, hf, hrw, hbw⟩

/-- Witness for C4: a stream that errors makes the fetch reject with that
error, discarding the one chunk already received. -/
theorem doGet_atomic_w :
    doGet [[1]] (.streamError "boom") (fun _ => .ok { numRows := 5 }) = .error "boom" :=
  (doGet_atomic [[1]] (.streamError "boom") (fun _ => .ok { numRows := 5 })).1 "boom" rfl

/-- C5 as stated is false on the code: the row-limit segment is appended
under JS truthiness (`if (rows)`), so a provided but negative row limit
such as -1 is also appended even though it is not positive. -/
theorem buildPath_rowlimit_cex :
    buildPath "t" "sales" (some (-1)) = ["t", "sales", "-1"] ∧ ¬ (0 : Int) < -1 := by
  refine ⟨rfl, ?_⟩
  decide

/-- C5 (amended): the descriptor path is exactly the tenant id and the
dataset name in order, with `String(rows)` appended as a third segment
if and only if a row limit is provided and nonzero (JS truthiness), and
no other segments. -/
theorem buildPath_rowlimit (t d : String) :
    buildPath t d none = [t, d] ∧
    buildPath t d (some 0) = [t, d] ∧
    (∀ r : Int, r ≠ 0 → buildPath t d (some r) = [t, d, toString r]) := by
  refine ⟨rfl, rfl, ?_⟩
  intro r hr
  simp [buildPath, hr]

/-- Witness for C5 (amended): a provided positive row limit of 500 yields
the three-segment path. -/
theorem buildPath_rowlimit_w :
    buildPath "t" "sales" (some 500) = ["t", "sales", "500"] :=
  (buildPath_rowlimit "t" "sales").2.2 500 (by decide)

/-- C6: the health probe is a total boolean function of the observed
stream behaviour (it always resolves and never fails outward): it yields
true when at least one response unit was observed and the stream did not
error, false on stream error, and exactly the liveness observed so far
when the timeout fires first. -/
theorem checkHealth_probe (n : Nat) (terminal : ProbeTerminal) :
    (1 ≤ n → terminal ≠ .probeError → checkHealth n terminal = true) ∧
    (terminal = .probeError → checkHealth n terminal = false) ∧
    (terminal = .probeTimeout → checkHealth n terminal = decide (0 < n)) := by
  refine ⟨?_, ?_, ?_⟩ <;> cases terminal <;> simp [checkHealth] <;> omega

/-- Witness for C6: one response unit observed before normal stream
completion yields a healthy probe. -/
theorem checkHealth_probe_w : checkHealth 1 .probeEnd = true :=
  (checkHealth_probe 1 .probeEnd).1 (Nat.le_refl 1) (by decide)

/-- C7: for a completed run (all `totalRequests` results collected), the
metrics satisfy `total_requests = successful + failed = totalRequests`,
`successful`/`failed` being the partition of the results by status. -/
theorem runLoadTest_total_partition (total cap : Nat) (tenants : List String)
    (s : LoadState) (d : ℚ) (hcap : 1 ≤ cap)
    (h : Reachable (initState total cap tenants) s)
    (hdone : s.results.length = total) :
    (calculateMetrics s.results d).total_requests =
      (calculateMetrics s.results d).successful + (calculateMetrics s.results d).failed ∧
    (calculateMetrics s.results d).total_requests = total := by
  constructor
  · simp only [calculateMetrics]
    exact (length_filter_add_length_filter_not s.results _).symm
  · simpa [calculateMetrics] using hdone

/-- Witness for C7 at the completed empty run (`totalRequests = 0`). -/
theorem runLoadTest_total_partition_w :
    (calculateMetrics (initState 0 1 ["a"]).results 1).total_requests =
      (calculateMetrics (initState 0 1 ["a"]).results 1).successful +
        (calculateMetrics (initState 0 1 ["a"]).results 1).failed ∧
    (calculateMetrics (initState 0 1 ["a"]).results 1).total_requests = 0 :=
  runLoadTest_total_partition 0 1 ["a"] (initState 0 1 ["a"]) 1 (Nat.le_refl 1)
    Relation.ReflTransGen.refl rfl

/-- C9: in every reachable state of a run over a non-empty tenant list of
length `N` — hence independently of the completion interleaving — the
`i`-th admitted request was assigned tenant `tenants[i % N]`. -/
theorem runLoadTest_tenant_assignment (total cap : Nat) (tenants : List String)
    (s : LoadState) (hcap : 1 ≤ cap) (hne : tenants ≠ [])
    (h : Reachable (initState total cap tenants) s) :
    ∀ i, i < s.admitted.length →
      ∃ hlt : i % tenants.length < tenants.length,
        s.admitted.getD i "" = tenants.get ⟨i % tenants.length, hlt⟩ := by
  intro i hi
  have hpos : 0 < tenants.length := List.length_pos.mpr hne
  refine ⟨Nat.mod_lt _ hpos, ?_⟩
  have hten := (reachable_invariant total cap tenants s hcap h).2.2.2.2.2.2.2 i hi
  rw [hten]
  exact List.getD_eq_get _ _ (Nat.mod_lt _ hpos)

/-- Witness for C9: after two admissions over tenants `["a", "b"]`,
request 1 was assigned tenant `tenants[1 % 2] = "b"`. -/
theorem runLoadTest_tenant_assignment_w :
    ∃ hlt : 1 % 2 < 2,
      ({ total := 3, cap := 2, tenants := ["a", "b"], admitted := ["a", "b"], results := [], blocked := true } : LoadState).admitted.getD 1 "" =
        ["a", "b"].get ⟨1 % 2, hlt⟩ := by
  refine runLoadTest_tenant_assignment 3 2 ["a", "b"]
    { total := 3, cap := 2, tenants := ["a", "b"], admitted := ["a", "b"], results := [], blocked := true }
    (by norm_num) (by simp) ?_ 1 (by norm_num)
  exact Relation.ReflTransGen.head
    (LoadStep.spawn (initState 3 2 ["a", "b"]) rfl (by norm_num [initState]))
    (Relation.ReflTransGen.single (LoadStep.spawn _ rfl (by norm_num [initState])))

/-- C8: a stream that completes normally with zero accumulated data
chunks resolves to `{rowCount: 0, byteCount: 0}` rather than failing,
for any decode behaviour. -/
theorem doGet_zero_chunks (events : List Bytes)
    (decode : Bytes → Except String ArrowTable)
    (hnone : events.filter (fun c => decide (0 < c.length)) = []) :
    doGet events .streamEnd decode = .ok { table := none, rows := 0, bytes := 0 } := by
  simp [doGet, hnone]

/-- Witness for C8: an empty stream yields `{0, 0}` even under a decode
function that always fails. -/
theorem doGet_zero_chunks_w :
    doGet [] .streamEnd (fun _ => .error "undecodable") =
      .ok { table := none, rows := 0, bytes := 0 } :=
  doGet_zero_chunks [] (fun _ => .error "undecodable") rfl

/-- C10: a run with `totalRequests = 0` collects no results, and with a
positive measured duration the metrics are all zero (counts, rows,
bytes, average, p95 and throughput). -/
theorem runLoadTest_zero_requests (cap : Nat) (tenants : List String)
    (s : LoadState) (d : ℚ) (hcap : 1 ≤ cap)
    (h : Reachable (initState 0 cap tenants) s) (hd : 0 < d) :
    s.results = [] ∧
    calculateMetrics s.results d =
      { total_requests := 0, successful := 0, failed := 0, total_rows := 0, total_bytes := 0,
        duration_s := d, throughput := 0, avg_latency_ms := 0, p95_latency_ms := 0 } := by
  obtain ⟨-, -, -, hrm, hat, -, -, -⟩ := reachable_invariant 0 cap tenants s hcap h
  have hres : s.results = [] := by
    have hlen : s.results.length = 0 := by omega
    exact List.length_eq_zero.mp hlen
  refine ⟨hres, ?_⟩
  rw [hres]
  simp [calculateMetrics]

/-- Witness for C10 at the initial (already final) state of a
zero-request run with duration 1 s. -/
theorem runLoadTest_zero_requests_w :
    (initState 0 1 ["a"]).results = [] ∧
    calculateMetrics (initState 0 1 ["a"]).results 1 =
      { total_requests := 0, successful := 0, failed := 0, total_rows := 0, total_bytes := 0,
        duration_s := 1, throughput := 0, avg_latency_ms := 0, p95_latency_ms := 0 } :=
  runLoadTest_zero_requests 1 ["a"] (initState 0 1 ["a"]) 1 (Nat.le_refl 1)
    Relation.ReflTransGen.refl (by norm_num)

end FlightCli
